import Mathlib

/-!
A verification development for the disk-usage reporter in `src/du.c`.

The program is shallowly embedded: each C function of interest is
translated into a Lean definition that mirrors its control flow, and the
filesystem is modelled as a finite tree of entries carrying the POSIX
metadata (`lstat` results) the program reads.  Machine integers (`long`,
`int`) are modelled as `ℤ`/`ℕ` (no quantity in this program approaches
overflow on the inputs considered), and C `double` arithmetic in the
human-readable formatter is modelled exactly over `ℚ`: every operation the
formatter performs on doubles (division by 1024, division by 10,
multiplication by 10, comparison, truncation to `int`) is exact for the
integer kibibyte counts the program feeds it, because division by 1024 is
exact in binary floating point and the remaining values stay far below
2^53.
-/

/-! ## File classification (du.c lines 30-36) -/

/-- The `mode_t` file types distinguished by `lstat`; `du.c` only ever asks
`S_ISREG`, `S_ISLNK` and `S_ISDIR`, the remaining constructors cover every
other POSIX file type (FIFO, socket, character device, block device). -/
inductive FileType where
  | reg | lnk | dirType | fifo | sock | chr | blk
deriving DecidableEq

/-- C `isFile` (du.c lines 30-32): `S_ISREG(type) || S_ISLNK(type)`. -/
def isFile (t : FileType) : Bool :=
  t = FileType.reg || t = FileType.lnk

/-- C `isDir` (du.c lines 34-36): `S_ISDIR(type)`. -/
def isDir (t : FileType) : Bool :=
  t = FileType.dirType

/-! ## The ceiling helper (du.c lines 38-40) -/

/-- A C cast `(int)x`: truncation toward zero.  Modelled on `ℚ`. -/
def ctrunc (x : ℚ) : ℤ :=
  if 0 ≤ x then ⌊x⌋ else -⌊-x⌋

/-- C `ceiling` (du.c lines 38-40):
`x - (int)x > 0 ? (int)(x + 1) : (int)x`. -/
def ceiling (x : ℚ) : ℤ :=
  if 0 < x - ctrunc x then ctrunc (x + 1) else ctrunc x

/-! ## The human-readable formatter (du.c lines 102-137)

`PrintFileReadable(file, kb)` prints one line; what varies is the size
field.  We model the rendered size field as an `RSize` value: the raw
integer-with-unit form produced by `sprintf("%dU", ceiling(v))`, the
one-decimal form produced by `sprintf("%.1lfU", ceiling(v*10)/10.0)`
(recorded as the integer number of tenths), or the bare string "0". -/

/-- The unit suffixes of the human-readable form. -/
inductive SizeUnit where
  | K | M | G | T
deriving DecidableEq

/-- A rendered human-readable size field.
`int n u` renders as the integer `n` followed by the unit letter;
`dec t u` renders as the one-decimal number `t/10` followed by the unit
letter; `zero` renders as the literal string "0" with no unit. -/
inductive RSize where
  | zero
  | int (n : ℤ) (u : SizeUnit)
  | dec (tenths : ℤ) (u : SizeUnit)
deriving DecidableEq

/-- C `PrintFileReadable` (du.c lines 102-137), restricted to the size
field it renders.  `mb`, `gb`, `tb` are the successive divisions by
`BYTE_CONV = 1024`; the C comparisons `tb >= 1` and `tb / 10 > 1` are kept
verbatim (the locals `mb`/`gb`/`tb` are inlined). -/
def PrintFileReadable (kb : ℚ) : RSize :=
  if 1 ≤ kb / 1024 / 1024 / 1024 then
    if 1 < kb / 1024 / 1024 / 1024 / 10 then
      RSize.int (ceiling (kb / 1024 / 1024 / 1024)) SizeUnit.T
    else
      RSize.dec (ceiling (kb / 1024 / 1024 / 1024 * 10)) SizeUnit.T
  else if 1 ≤ kb / 1024 / 1024 then
    if 1 < kb / 1024 / 1024 / 10 then
      RSize.int (ceiling (kb / 1024 / 1024)) SizeUnit.G
    else
      RSize.dec (ceiling (kb / 1024 / 1024 * 10)) SizeUnit.G
  else if 1 ≤ kb / 1024 then
    if 1 < kb / 1024 / 10 then
      RSize.int (ceiling (kb / 1024)) SizeUnit.M
    else
      RSize.dec (ceiling (kb / 1024 * 10)) SizeUnit.M
  else if 1 < kb / 10 then
    RSize.int (ceiling kb) SizeUnit.K
  else if kb = 0 then
    RSize.zero
  else
    RSize.dec (ceiling (kb * 10)) SizeUnit.K

/-- The value of `kb` scaled into the given unit, by successive division
by 1024 as the formatter computes it. -/
def scaledBy (u : SizeUnit) (kb : ℚ) : ℚ :=
  match u with
  | SizeUnit.K => kb
  | SizeUnit.M => kb / 1024
  | SizeUnit.G => kb / 1024 / 1024
  | SizeUnit.T => kb / 1024 / 1024 / 1024

/-- The largest unit among K, M, G, T whose scaled value is at least 1
(defaulting to K), as the spec describes unit selection. -/
def largestUnit (kb : ℚ) : SizeUnit :=
  if 1 ≤ scaledBy SizeUnit.T kb then SizeUnit.T
  else if 1 ≤ scaledBy SizeUnit.G kb then SizeUnit.G
  else if 1 ≤ scaledBy SizeUnit.M kb then SizeUnit.M
  else SizeUnit.K

/-- Modelled from the claim C2 as stated: integer form (rounded up) when
the scaled value is at least 10, one-decimal form (ceiling of ten times
the value, over ten) otherwise. -/
def claimRenderFn (u : SizeUnit) (kb : ℚ) : RSize :=
  if 10 ≤ scaledBy u kb then RSize.int ⌈scaledBy u kb⌉ u
  else RSize.dec ⌈scaledBy u kb * 10⌉ u

/-- The human-readable rendering exactly as claim C2 states it: a raw zero
renders as "0", otherwise the largest unit with scaled value at least 1 is
selected and `claimRenderFn` formats it (integer form at scaled value 10
and above). -/
def claimRender (kb : ℚ) : RSize :=
  if kb = 0 then RSize.zero else claimRenderFn (largestUnit kb) kb

/-- The amended formatting rule: integer form only when the scaled value
is strictly greater than 10; a scaled value of exactly 10 still uses the
one-decimal form. -/
def specRenderFn (u : SizeUnit) (kb : ℚ) : RSize :=
  if 10 < scaledBy u kb then RSize.int ⌈scaledBy u kb⌉ u
  else RSize.dec ⌈scaledBy u kb * 10⌉ u

/-- The human-readable rendering as the amended claim describes it:
largest unit with scaled value at least 1, integer form for scaled values
strictly above 10, one-decimal form for scaled values in [1, 10] (and for
the K unit in (0, 10]), and "0" for a raw zero. -/
def specRender (kb : ℚ) : RSize :=
  if kb = 0 then RSize.zero else specRenderFn (largestUnit kb) kb

/-! ## Configuration (du.c lines 22-28) and depth policy (lines 147-149) -/

/-- C `Mode` (du.c lines 22-28).  The C `int` flags are booleans in use;
`depth` is a C `long` and `-1` means unlimited. -/
structure Mode where
  all : Bool
  total : Bool
  readable : Bool
  depth : ℤ
  progName : String

/-- C `DepthOK` (du.c lines 147-149):
`depth <= mode->depth || mode->depth == -1`. -/
def DepthOK (depth : ℤ) (mode : Mode) : Bool :=
  depth ≤ mode.depth || mode.depth == -1

/-! ## The filesystem model

A filesystem is a finite tree of entries.  Each entry carries the metadata
the program reads through `lstat` (file type and `st_blocks` allocated
512-byte block count), plus, for directories, whether `opendir` succeeds
on them and the list their `readdir` iteration yields (in iteration
order, and not including the "." and ".." entries the kernel also
reports: those are carried as ordinary list elements when one wants to
model them, and the walker skips them by name exactly as the C does).
The `readable` flag and `children` list are meaningful only for
directory-typed entries; the walker never consults them otherwise,
mirroring the fact that the C only calls `opendir` on paths its caller
classified as directories. -/

/-- One filesystem entry as seen by `lstat`/`readdir`. -/
inductive FsEntry where
  | node (name : String) (ftype : FileType) (blocks : ℕ) (readable : Bool)
         (children : List FsEntry)

/-- One line of standard output, as printed by `PrintFileUsage` (du.c
lines 139-145): the raw usage value and the path.  When `mode->readable`
is set the size field is rendered through `PrintFileReadable`, otherwise
it is printed as a decimal number; either way exactly one line with this
data is emitted. -/
structure OutLine where
  size : ℕ
  path : String
deriving DecidableEq

/-- A diagnostic written to standard error, in structured form.  Each
constructor records the data the corresponding `fprintf(stderr, ...)` in
du.c interpolates: the program name and the offending path / token /
option character. -/
inductive Diag where
  | cannotRead (prog : String) (path : String)
  | cannotAccess (prog : String) (path : String)
  | invalidDepth (prog : String) (value : String)
  | unrecognizedOption (prog : String) (token : String)
  | invalidOption (prog : String) (c : Char)
deriving DecidableEq

/-- C `PrintFileUsage` (du.c lines 139-145): prints one line for `name`
with the given size (through `PrintFileReadable` when `mode->readable`)
and returns the size unchanged.  Modelled as the returned value together
with the printed line. -/
def PrintFileUsage (size : ℕ) (name : String) : ℕ × OutLine :=
  (size, ⟨size, name⟩)

/-- The result of a traversal: the returned total (KiB), the stdout lines
in print order, and the stderr diagnostics in print order. -/
structure WalkOut where
  total : ℕ
  out : List OutLine
  errs : List Diag
deriving DecidableEq

/-- The child path built at du.c lines 171-174: `strcpy(cdir, file)`,
then `strcat(cdir, "/")` unless `file` is "/", then `strcat(cdir, name)`. -/
def childPath (file name : String) : String :=
  if file = "/" then file ++ name else file ++ "/" ++ name

mutual

/-- C `PrintDirectoryUsage` (du.c lines 151-189).  The walker seeds the
total with the directory's own `st_blocks / 2`; if `opendir` failed
(`readable = false`) it reports the directory to stderr and returns just
that seed (the `goto cleanup` path); otherwise it processes the entries
through `readdirLoop`, prints its own total when the current depth passes
`DepthOK`, and returns the total. -/
def PrintDirectoryUsage (mode : Mode) (file : String) (depth : ℤ)
    (blocks : ℕ) (readable : Bool) (children : List FsEntry) : WalkOut :=
  if readable then
    let r := readdirLoop mode file depth children
    let total := blocks / 2 + r.total
    if DepthOK depth mode then
      ⟨total, r.out ++ [(PrintFileUsage total file).2], r.errs⟩
    else
      ⟨total, r.out, r.errs⟩
  else
    ⟨blocks / 2, [], [Diag.cannotRead mode.progName file]⟩

/-- The `while ((entry = readdir(dir)))` loop of `PrintDirectoryUsage`
(du.c lines 166-183): "." and ".." are skipped; a regular file or symlink
is printed and added when `-a` is set and the child depth passes
`DepthOK`; a directory is recursed into at `depth + 1`; anything else
(including files not individually shown) silently adds its
`st_blocks / 2`. -/
def readdirLoop (mode : Mode) (file : String) (depth : ℤ) :
    List FsEntry → WalkOut
  | [] => ⟨0, [], []⟩
  | FsEntry.node name ftype blocks readable cc :: rest =>
    let r2 := readdirLoop mode file depth rest
    if name == "." || name == ".." then r2
    else
      let cdir := childPath file name
      let r1 : WalkOut :=
        if isFile ftype && mode.all && DepthOK (depth + 1) mode then
          let p := PrintFileUsage (blocks / 2) cdir
          ⟨p.1, [p.2], []⟩
        else if isDir ftype then
          PrintDirectoryUsage mode cdir (depth + 1) blocks readable cc
        else
          ⟨blocks / 2, [], []⟩
      ⟨r1.total + r2.total, r1.out ++ r2.out, r1.errs ++ r2.errs⟩

end

mutual

/-- The usage a single directory entry contributes to its parent, as the
spec's invariant states it: a non-directory contributes its own metadata
cost `st_blocks / 2`; a directory contributes its recursively computed
total (own cost plus children when readable, own cost alone when its
entries cannot be iterated). -/
def usageEntry : FsEntry → ℕ
  | FsEntry.node _ ft b r cs =>
    if isDir ft then b / 2 + (if r then usageList cs else 0) else b / 2

/-- The summed usage of a `readdir` listing, skipping the "." and ".."
entries (which the walker never counts). -/
def usageList : List FsEntry → ℕ
  | [] => 0
  | FsEntry.node n ft b r cs :: rest =>
    (if n == "." || n == ".."
     then 0
     else usageEntry (FsEntry.node n ft b r cs)) + usageList rest

end

/-! ## Argument parsing (du.c lines 42-100)

`ReadCmdArguments` scans `argv[1..]`, filling in the `Mode`, collecting
bare arguments as target paths, reporting malformed options to stderr and
remembering in `invalid` that the process must exit with failure after the
scan (du.c lines 96-99). -/

/-- The characters C `isspace` accepts (the whitespace `strtol` skips). -/
def isSpaceC (c : Char) : Bool :=
  c = ' ' || c = '\t' || c = '\n' || c = '\r' || c = '\x0b' || c = '\x0c'

/-- The value of the longest leading run of decimal digits, 0 if none. -/
def leadingNat : ℕ → List Char → ℕ
  | acc, [] => acc
  | acc, c :: rest =>
    if c.isDigit then leadingNat (acc * 10 + (c.toNat - 48)) rest else acc

/-- `strtol(s, NULL, 10)` as glibc implements it for the in-range inputs
considered here: skip whitespace, accept an optional sign, convert the
longest leading digit run, ignore everything after it, and return 0 when
no digits are present (glibc leaves `errno` untouched in that case; the
ERANGE overflow path is not modelled because no claim involves values near
`LONG_MAX`). -/
def strtol10 (s : List Char) : ℤ :=
  match s.dropWhile isSpaceC with
  | '-' :: rest => -(leadingNat 0 rest : ℤ)
  | '+' :: rest => (leadingNat 0 rest : ℤ)
  | rest => (leadingNat 0 rest : ℤ)

/-- The state `ReadCmdArguments` threads through its scan: the `Mode`
being filled in, the target paths collected so far, the `invalid` flag,
and the stderr diagnostics in emission order. -/
structure ParseState where
  mode : Mode
  files : List String
  invalid : Bool
  diags : List Diag

/-- One iteration of the argument loop of C `ReadCmdArguments` (du.c
lines 45-94).  An argument of length at least 12 starting with "--" is
compared character by character against "--max-depth="; on a match the
suffix is converted with `strtol` and rejected (diagnostic + `invalid`)
when `errno` is set, the value is negative, or the suffix is empty, with
`mode->depth` assigned the converted value in every case.  Any other
argument starting with "--", or a matching failure, is an unrecognized
option.  A remaining argument starting with '-' is scanned character by
character for the flags 'a', 'c', 'h', any other character being an
invalid option.  Everything else is collected as a target path. -/
def stepArg (st : ParseState) (arg : String) : ParseState :=
  let prog := st.mode.progName
  let cs := arg.data
  if 12 ≤ arg.length ∧ cs.take 2 = ['-', '-'] then
    if cs.take 12 = "--max-depth=".data then
      let suffix := cs.drop 12
      let depth := strtol10 suffix
      let bad : Bool := decide (depth < 0) || suffix.isEmpty
      { st with
        mode := { st.mode with depth := depth },
        invalid := st.invalid || bad,
        diags := st.diags ++
          (if bad then [Diag.invalidDepth prog (String.mk suffix)] else []) }
    else
      { st with invalid := true,
                diags := st.diags ++ [Diag.unrecognizedOption prog arg] }
  else if cs.take 2 = ['-', '-'] then
    { st with invalid := true,
              diags := st.diags ++ [Diag.unrecognizedOption prog arg] }
  else if cs.take 1 = ['-'] then
    let scan := fun (acc : Mode × Bool × List Diag) (c : Char) =>
      if c = 'a' then ({ acc.1 with all := true }, acc.2.1, acc.2.2)
      else if c = 'c' then ({ acc.1 with total := true }, acc.2.1, acc.2.2)
      else if c = 'h' then ({ acc.1 with readable := true }, acc.2.1, acc.2.2)
      else (acc.1, true, acc.2.2 ++ [Diag.invalidOption prog c])
    let r := (cs.drop 1).foldl scan (st.mode, st.invalid, st.diags)
    { st with mode := r.1, invalid := r.2.1, diags := r.2.2 }
  else
    { st with files := st.files ++ [arg] }

/-- C `ReadCmdArguments` (du.c lines 42-100) applied to the argument list
after the program name, starting from the `Mode` initialized in `main`
(du.c line 216): all flags clear, `depth = -1` (unlimited).  When the
resulting `invalid` flag is set the C process prints a final hint line and
exits with `EXIT_FAILURE` before any traversal. -/
def ReadCmdArguments (prog : String) (args : List String) : ParseState :=
  args.foldl stepArg ⟨⟨false, false, false, -1, prog⟩, [], false, []⟩

/-! ## The top-level driver (du.c lines 191-213) -/

/-- The `lstat` outcome for one command-line target: either the call
fails (`absent`, the ENOENT path of du.c lines 199-203) or it yields the
entry's metadata. -/
inductive TargetStat where
  | absent
  | present (ftype : FileType) (blocks : ℕ) (readable : Bool)
            (children : List FsEntry)

/-- The result of C `PrintDiskUsage`: the accumulated grand total, the
stdout lines, the stderr diagnostics, and the return value as a failure
flag (`retVal` in the C, nonzero when some target was inaccessible). -/
structure RunOut where
  total : ℕ
  out : List OutLine
  errs : List Diag
  failed : Bool
deriving DecidableEq

/-- One iteration of the `while (*files)` loop of C `PrintDiskUsage`
(du.c lines 198-209): an inaccessible target is reported and sets
`retVal = 1`; a regular file or symlink is always printed via
`PrintFileUsage` and added to the total; a directory is walked from depth
0; any other file type is silently ignored. -/
def processTarget (mode : Mode) (p : String) (ts : TargetStat) : RunOut :=
  match ts with
  | TargetStat.absent => ⟨0, [], [Diag.cannotAccess mode.progName p], true⟩
  | TargetStat.present ft b r cs =>
    if isFile ft then
      let pr := PrintFileUsage (b / 2) p
      ⟨pr.1, [pr.2], [], false⟩
    else if isDir ft then
      let w := PrintDirectoryUsage mode p 0 b r cs
      ⟨w.total, w.out, w.errs, false⟩
    else
      ⟨0, [], [], false⟩

/-- The whole `while (*files)` loop of C `PrintDiskUsage`, accumulating
the total, the output, the diagnostics and the failure flag over the
explicit targets in order. -/
def duTargets (mode : Mode) : List (String × TargetStat) → RunOut
  | [] => ⟨0, [], [], false⟩
  | (p, ts) :: rest =>
    let r1 := processTarget mode p ts
    let r2 := duTargets mode rest
    ⟨r1.total + r2.total, r1.out ++ r2.out, r1.errs ++ r2.errs,
     r1.failed || r2.failed⟩

/-- C `PrintDiskUsage` (du.c lines 191-213).  With no targets the current
directory "." (whose metadata is the `cwd` triple: blocks, opendir
success, entries) is walked at depth 0; otherwise each target is
processed in turn; finally, under `-c`, a "total" line with the grand
total is printed through `PrintFileUsage`. -/
def PrintDiskUsage (mode : Mode) (cwd : ℕ × Bool × List FsEntry)
    (targets : List (String × TargetStat)) : RunOut :=
  let base : RunOut :=
    if targets.isEmpty then
      let w := PrintDirectoryUsage mode "." 0 cwd.1 cwd.2.1 cwd.2.2
      ⟨w.total, w.out, w.errs, false⟩
    else ⟨0, [], [], false⟩
  let r := duTargets mode targets
  let total := base.total + r.total
  ⟨total,
   base.out ++ r.out ++
     (if mode.total then [(PrintFileUsage total "total").2] else []),
   base.errs ++ r.errs,
   base.failed || r.failed⟩

/-! ## Directory-handle discipline (du.c lines 152, 161-165, 187-188)

`PrintDirectoryUsage` opens a directory handle at entry and has a single
`cleanup: closedir(dir);` exit point reached both after a completed
iteration and, via `goto`, when `opendir` returned NULL.  The sequence of
handle events a walk performs is modelled as a trace, and `closedir` is
given the glibc semantics: closing a valid handle releases it, while
`closedir(NULL)` checks its argument, sets EINVAL and returns -1 without
touching any handle (POSIX leaves this call undefined; glibc guards it,
making the C's unconditional `closedir(dir)` on the error path a safe
no-op there). -/

/-- A directory-handle event: a successful `opendir`, a `closedir` of the
handle it returned, or the `closedir(NULL)` reached through the error
path's `goto cleanup`. -/
inductive HandleEvent where
  | openOK
  | closeHandle
  | closeNull

mutual

/-- The handle events of one `PrintDirectoryUsage` call, in order: on
success, the open, then the events of the recursive walks, then the
close at `cleanup`; on `opendir` failure, just the `closedir(NULL)` the
`goto cleanup` reaches. -/
def dirHandleTrace (readable : Bool) (children : List FsEntry) :
    List HandleEvent :=
  if readable then
    HandleEvent.openOK :: (entriesHandleTrace children ++ [HandleEvent.closeHandle])
  else
    [HandleEvent.closeNull]

/-- The handle events of the `readdir` loop: only recursion into child
directories opens further handles ("." and ".." are skipped, and files
never reach `opendir`). -/
def entriesHandleTrace : List FsEntry → List HandleEvent
  | [] => []
  | FsEntry.node n ft _ r cc :: rest =>
    (if n == "." || n == ".." then []
     else if isDir ft then dirHandleTrace r cc
     else []) ++ entriesHandleTrace rest

end

/-- Run a handle trace against a count of currently open handles,
per the glibc `closedir` semantics: `closeHandle` on no open handle is
unsafe (`none`), `closedir(NULL)` changes nothing. -/
def runHandleTrace : ℕ → List HandleEvent → Option ℕ
  | n, [] => some n
  | n, HandleEvent.openOK :: r => runHandleTrace (n + 1) r
  | n, HandleEvent.closeHandle :: r =>
    match n with
    | 0 => none
    | m + 1 => runHandleTrace m r
  | n, HandleEvent.closeNull :: r => runHandleTrace n r


/-- Tier index of a unit: K lowest, T highest. -/
def unitIdx : SizeUnit → ℕ
  | SizeUnit.K => 1
  | SizeUnit.M => 2
  | SizeUnit.G => 3
  | SizeUnit.T => 4

/-- Tier index of a rendered size: the bare "0" below every unit tier. -/
def tierIdx : RSize → ℕ
  | RSize.zero => 0
  | RSize.int _ u => unitIdx u
  | RSize.dec _ u => unitIdx u

/-- The numeric part of a rendered size: the integer for the integer
form, tenths over ten for the one-decimal form. -/
def numVal : RSize → ℚ
  | RSize.zero => 0
  | RSize.int n _ => (n : ℚ)
  | RSize.dec t _ => (t : ℚ) / 10

/-- A sample configuration (all flags clear, unlimited depth) used by the
concrete witness instances below. -/
def sampleMode : Mode :=
  ⟨false, false, false, -1, "du"⟩

/-! ## Properties of the ceiling helper -/

theorem ctrunc_of_nonneg {x : ℚ} (hx : 0 ≤ x) : ctrunc x = ⌊x⌋ := by
  simp [ctrunc, hx]

/-- On nonnegative arguments (the only ones `du.c` passes) the C `ceiling`
helper agrees with the mathematical ceiling. -/
theorem ceiling_eq_ceil (x : ℚ) (hx : 0 ≤ x) : ceiling x = ⌈x⌉ := by
  have hx1 : (0:ℚ) ≤ x + 1 := by linarith
  unfold ceiling
  rw [ctrunc_of_nonneg hx, ctrunc_of_nonneg hx1]
  by_cases h : 0 < x - ⌊x⌋
  · rw [if_pos h, Int.floor_add_one]
    symm
    rw [Int.ceil_eq_iff]
    constructor
    · push_cast
      have := Int.floor_le x
      linarith
    · push_cast
      have := Int.lt_floor_add_one x
      linarith
  · rw [if_neg h]
    have hfe : ((⌊x⌋ : ℚ)) = x := by
      have := Int.floor_le x
      linarith
    calc ⌊x⌋ = ⌈((⌊x⌋ : ℤ) : ℚ)⌉ := (Int.ceil_intCast _).symm
      _ = ⌈x⌉ := by rw [hfe]

/-! ## Totals of the walker -/

/-- A file (regular or symlink) is never a directory. -/
theorem isFile_not_isDir {t : FileType} (h : isFile t = true) :
    isDir t = false := by
  cases t <;> simp_all [isFile, isDir]

/-- The `readdir` loop accumulates exactly the summed usage of the
listing, whatever the mode and depth. -/
theorem readdirLoop_total (mode : Mode) :
    ∀ (file : String) (depth : ℤ) (cs : List FsEntry),
      (readdirLoop mode file depth cs).total = usageList cs := by
  refine readdirLoop.induct mode
    (fun file depth blocks readable children =>
      (PrintDirectoryUsage mode file depth blocks readable children).total
        = blocks / 2 + (if readable then usageList children else 0))
    (fun file depth cs =>
      (readdirLoop mode file depth cs).total = usageList cs)
    ?_ ?_ ?_ ?_ ?_ ?_
  · intro file depth blocks children hdep ih
    simp [PrintDirectoryUsage, hdep, ih]
  · intro file depth blocks children hdep ih
    simp [PrintDirectoryUsage, hdep, ih]
  · intro file depth blocks readable children hr
    have : readable = false := by simpa using hr
    subst this
    simp [PrintDirectoryUsage]
  · intro file depth
    simp [readdirLoop, usageList]
  · intro file depth name ftype blocks readable cc rest hdot ih
    simp [readdirLoop, usageList, hdot, ih]
  · intro file depth name ftype blocks readable cc rest hdot cdir ihRest ihDir
    have hdot' : (name == "." || name == "..") = false := by
      simpa using hdot
    by_cases hf : (isFile ftype && mode.all && DepthOK (depth + 1) mode) = true
    · have hfile : isFile ftype = true := by
        simp only [Bool.and_eq_true] at hf
        exact hf.1.1
      simp [readdirLoop, usageList, usageEntry, hdot', hf,
            isFile_not_isDir hfile, ihRest, PrintFileUsage]
    · by_cases hd : isDir ftype = true
      · simp [readdirLoop, usageList, usageEntry, hdot', hf, hd, ihRest, ihDir]
      · simp [readdirLoop, usageList, usageEntry, hdot', hf, hd, ihRest]

/-- The walker's returned total is the directory's own metadata cost plus
the summed usage of its listing (when readable), independent of the mode
and depth. -/
theorem PrintDirectoryUsage_total (mode : Mode) (file : String) (depth : ℤ)
    (blocks : ℕ) (readable : Bool) (children : List FsEntry) :
    (PrintDirectoryUsage mode file depth blocks readable children).total
      = blocks / 2 + (if readable then usageList children else 0) := by
  cases readable
  · simp [PrintDirectoryUsage]
  · by_cases h : DepthOK depth mode = true <;>
      simp [PrintDirectoryUsage, h, readdirLoop_total]

/-! ## Output below the depth cutoff -/

/-- With a finite (non-negative) configured maximum depth, the `readdir`
loop prints nothing once the current depth has reached the cutoff: every
line it could print lies at depth at least `depth + 1`. -/
theorem readdirLoop_out_nil (mode : Mode) (hmd : 0 ≤ mode.depth) :
    ∀ (file : String) (depth : ℤ) (cs : List FsEntry),
      mode.depth ≤ depth → (readdirLoop mode file depth cs).out = [] := by
  refine readdirLoop.induct mode
    (fun file depth blocks readable children =>
      mode.depth < depth →
        (PrintDirectoryUsage mode file depth blocks readable children).out = [])
    (fun file depth cs =>
      mode.depth ≤ depth → (readdirLoop mode file depth cs).out = [])
    ?_ ?_ ?_ ?_ ?_ ?_
  · intro file depth blocks children hdep ih hlt
    exfalso
    simp only [DepthOK, Bool.or_eq_true, decide_eq_true_eq, beq_iff_eq] at hdep
    omega
  · intro file depth blocks children hdep ih hlt
    simp [PrintDirectoryUsage, hdep, ih (le_of_lt hlt)]
  · intro file depth blocks readable children hr hlt
    have : readable = false := by simpa using hr
    subst this
    simp [PrintDirectoryUsage]
  · intro file depth hle
    simp [readdirLoop]
  · intro file depth name ftype blocks readable cc rest hdot ih hle
    simp [readdirLoop, hdot, ih hle]
  · intro file depth name ftype blocks readable cc rest hdot cdir ihRest ihDir hle
    have hdot' : (name == "." || name == "..") = false := by
      simpa using hdot
    have hDOK : DepthOK (depth + 1) mode = false := by
      simp only [DepthOK, Bool.or_eq_false_iff, decide_eq_false_iff_not,
                 beq_eq_false_iff_ne, ne_eq]
      omega
    by_cases hd : isDir ftype = true
    · simp [readdirLoop, hdot', hDOK, hd, ihRest hle, ihDir (by omega)]
    · simp [readdirLoop, hdot', hDOK, hd, ihRest hle]

/-! ## Compositionality of the loops -/

/-- The `readdir` loop is compositional over the listing: totals add,
output and diagnostics concatenate. -/
theorem readdirLoop_append (mode : Mode) (file : String) (depth : ℤ)
    (xs ys : List FsEntry) :
    readdirLoop mode file depth (xs ++ ys)
      = ⟨(readdirLoop mode file depth xs).total
           + (readdirLoop mode file depth ys).total,
         (readdirLoop mode file depth xs).out
           ++ (readdirLoop mode file depth ys).out,
         (readdirLoop mode file depth xs).errs
           ++ (readdirLoop mode file depth ys).errs⟩ := by
  induction xs with
  | nil => simp [readdirLoop]
  | cons e rest ih =>
    cases e with
    | node n ft b r cc =>
      by_cases hdot : (n == "." || n == "..") = true
      · simp [readdirLoop, hdot, ih]
      · simp [readdirLoop, hdot, ih, List.append_assoc, Nat.add_assoc]

/-- The target loop of `PrintDiskUsage` is compositional over the target
list. -/
theorem duTargets_append (mode : Mode) (xs ys : List (String × TargetStat)) :
    duTargets mode (xs ++ ys)
      = ⟨(duTargets mode xs).total + (duTargets mode ys).total,
         (duTargets mode xs).out ++ (duTargets mode ys).out,
         (duTargets mode xs).errs ++ (duTargets mode ys).errs,
         (duTargets mode xs).failed || (duTargets mode ys).failed⟩ := by
  induction xs with
  | nil => simp [duTargets]
  | cons e rest ih =>
    cases e with
    | mk p ts =>
      simp [duTargets, ih, List.append_assoc, Nat.add_assoc, Bool.or_assoc]

/-! ## Handle traces -/

/-- Running a concatenated trace runs the second part from where the
first part ended. -/
theorem runHandleTrace_append (xs ys : List HandleEvent) :
    ∀ n, runHandleTrace n (xs ++ ys)
      = (runHandleTrace n xs).bind (fun m => runHandleTrace m ys) := by
  induction xs with
  | nil => intro n; simp [runHandleTrace]
  | cons e rest ih =>
    intro n
    cases e with
    | openOK => simp [runHandleTrace, ih]
    | closeHandle =>
      cases n with
      | zero => simp [runHandleTrace]
      | succ m => simp [runHandleTrace, ih]
    | closeNull => simp [runHandleTrace, ih]

/-! ## Properties of the human-readable formatter -/

theorem one_lt_div_ten {s : ℚ} : 1 < s / 10 ↔ 10 < s := by
  rw [lt_div_iff₀ (by norm_num : (0:ℚ) < 10)]
  norm_num

/-- The C formatter agrees, on every integer kibibyte count, with the
amended specification rendering: largest unit with scaled value at least
1, integer (ceiling) form only for scaled values strictly above 10,
one-decimal form otherwise, "0" for zero. -/
theorem PrintFileReadable_eq_specRender (kb : ℕ) :
    PrintFileReadable kb = specRender kb := by
  have hq : (0:ℚ) ≤ (kb:ℚ) := Nat.cast_nonneg kb
  by_cases hz : (kb:ℚ) = 0
  · rw [hz]
    norm_num [PrintFileReadable, specRender]
  · have hzR : specRender (kb:ℚ) = specRenderFn (largestUnit kb) kb := by
      simp [specRender, hz]
    rw [hzR]
    by_cases hT : 1 ≤ (kb:ℚ) / 1024 / 1024 / 1024
    · have hu : largestUnit kb = SizeUnit.T := by
        simp [largestUnit, scaledBy, hT]
      rw [hu]
      simp only [specRenderFn, scaledBy, PrintFileReadable]
      rw [if_pos hT]
      by_cases h10 : (10:ℚ) < (kb:ℚ) / 1024 / 1024 / 1024
      · rw [if_pos (one_lt_div_ten.mpr h10), if_pos h10,
            ceiling_eq_ceil _ (by positivity)]
      · rw [if_neg (fun hc => h10 (one_lt_div_ten.mp hc)), if_neg h10,
            ceiling_eq_ceil _ (by positivity)]
    · by_cases hG : 1 ≤ (kb:ℚ) / 1024 / 1024
      · have hu : largestUnit kb = SizeUnit.G := by
          simp [largestUnit, scaledBy, hT, hG]
        rw [hu]
        simp only [specRenderFn, scaledBy, PrintFileReadable]
        rw [if_neg hT, if_pos hG]
        by_cases h10 : (10:ℚ) < (kb:ℚ) / 1024 / 1024
        · rw [if_pos (one_lt_div_ten.mpr h10), if_pos h10,
              ceiling_eq_ceil _ (by positivity)]
        · rw [if_neg (fun hc => h10 (one_lt_div_ten.mp hc)), if_neg h10,
              ceiling_eq_ceil _ (by positivity)]
      · by_cases hM : 1 ≤ (kb:ℚ) / 1024
        · have hu : largestUnit kb = SizeUnit.M := by
            simp [largestUnit, scaledBy, hT, hG, hM]
          rw [hu]
          simp only [specRenderFn, scaledBy, PrintFileReadable]
          rw [if_neg hT, if_neg hG, if_pos hM]
          by_cases h10 : (10:ℚ) < (kb:ℚ) / 1024
          · rw [if_pos (one_lt_div_ten.mpr h10), if_pos h10,
                ceiling_eq_ceil _ (by positivity)]
          · rw [if_neg (fun hc => h10 (one_lt_div_ten.mp hc)), if_neg h10,
                ceiling_eq_ceil _ (by positivity)]
        · have hu : largestUnit kb = SizeUnit.K := by
            simp [largestUnit, scaledBy, hT, hG, hM]
          rw [hu]
          simp only [specRenderFn, scaledBy, PrintFileReadable]
          rw [if_neg hT, if_neg hG, if_neg hM]
          by_cases h10 : (10:ℚ) < (kb:ℚ)
          · rw [if_pos (one_lt_div_ten.mpr h10), if_pos h10,
                ceiling_eq_ceil _ hq]
          · rw [if_neg (fun hc => h10 (one_lt_div_ten.mp hc)), if_neg h10,
                if_neg hz, ceiling_eq_ceil _ (by positivity)]

theorem scaledBy_nonneg (u : SizeUnit) {kb : ℚ} (h : 0 ≤ kb) :
    0 ≤ scaledBy u kb := by
  cases u <;> simp only [scaledBy] <;> positivity

theorem scaledBy_mono (u : SizeUnit) {a b : ℚ} (h : a ≤ b) :
    scaledBy u a ≤ scaledBy u b := by
  cases u <;> simp only [scaledBy] <;> gcongr

theorem one_le_unitIdx (u : SizeUnit) : 1 ≤ unitIdx u := by
  cases u <;> simp [unitIdx]

theorem unitIdx_inj {u v : SizeUnit} (h : unitIdx u = unitIdx v) : u = v := by
  cases u <;> cases v <;> simp_all [unitIdx]

/-- A larger raw size never selects a smaller unit. -/
theorem unitIdx_largestUnit_mono {a b : ℚ} (hab : a ≤ b) :
    unitIdx (largestUnit a) ≤ unitIdx (largestUnit b) := by
  by_cases hTa : 1 ≤ scaledBy SizeUnit.T a
  · have hTb := le_trans hTa (scaledBy_mono _ hab)
    simp [largestUnit, hTa, hTb]
  · by_cases hGa : 1 ≤ scaledBy SizeUnit.G a
    · have hGb := le_trans hGa (scaledBy_mono _ hab)
      by_cases hTb : 1 ≤ scaledBy SizeUnit.T b <;>
        simp [largestUnit, hTa, hGa, hGb, hTb, unitIdx]
    · by_cases hMa : 1 ≤ scaledBy SizeUnit.M a
      · have hMb := le_trans hMa (scaledBy_mono _ hab)
        by_cases hTb : 1 ≤ scaledBy SizeUnit.T b <;>
          by_cases hGb : 1 ≤ scaledBy SizeUnit.G b <;>
            simp [largestUnit, hTa, hGa, hMa, hMb, hTb, hGb, unitIdx]
      · have h1 : unitIdx (largestUnit a) = 1 := by
          simp [largestUnit, hTa, hGa, hMa, unitIdx]
        rw [h1]
        exact one_le_unitIdx _

theorem tierIdx_specRenderFn (u : SizeUnit) (kb : ℚ) :
    tierIdx (specRenderFn u kb) = unitIdx u := by
  unfold specRenderFn
  split <;> rfl

/-- Within a fixed unit the rendered numeric part is monotone in the raw
size, also across the change from one-decimal to integer form. -/
theorem numVal_specRenderFn_mono (u : SizeUnit) {a b : ℚ} (h0 : 0 ≤ a)
    (hab : a ≤ b) :
    numVal (specRenderFn u a) ≤ numVal (specRenderFn u b) := by
  have hs : scaledBy u a ≤ scaledBy u b := scaledBy_mono u hab
  have hs0 : 0 ≤ scaledBy u a := scaledBy_nonneg u h0
  by_cases hb10 : 10 < scaledBy u b
  · by_cases ha10 : 10 < scaledBy u a
    · simp only [specRenderFn, if_pos hb10, if_pos ha10, numVal]
      exact_mod_cast Int.ceil_mono hs
    · simp only [specRenderFn, if_pos hb10, if_neg ha10, numVal]
      have h1 : (⌈scaledBy u a * 10⌉ : ℤ) ≤ 100 := by
        apply Int.ceil_le.mpr
        push_cast
        linarith [not_lt.mp ha10]
      have h2 : (10 : ℤ) < ⌈scaledBy u b⌉ :=
        Int.lt_ceil.mpr (by exact_mod_cast hb10)
      have h1' : ((⌈scaledBy u a * 10⌉ : ℤ) : ℚ) ≤ 100 := by exact_mod_cast h1
      have h2' : (10 : ℚ) < ((⌈scaledBy u b⌉ : ℤ) : ℚ) := by exact_mod_cast h2
      linarith
  · have ha10 : ¬ 10 < scaledBy u a := fun hc => hb10 (lt_of_lt_of_le hc hs)
    simp only [specRenderFn, if_neg hb10, if_neg ha10, numVal]
    have hcl : (⌈scaledBy u a * 10⌉ : ℤ) ≤ ⌈scaledBy u b * 10⌉ :=
      Int.ceil_mono (by linarith)
    have hcl' : ((⌈scaledBy u a * 10⌉ : ℤ) : ℚ)
        ≤ ((⌈scaledBy u b * 10⌉ : ℤ) : ℚ) := by
      exact_mod_cast hcl
    linarith

/-- The `goto cleanup` path of the walker: an unreadable directory yields
its own metadata cost, no output, and one diagnostic naming the program
and the path. -/
theorem PrintDirectoryUsage_unreadable (mode : Mode) (file : String)
    (depth : ℤ) (blocks : ℕ) (cs : List FsEntry) :
    PrintDirectoryUsage mode file depth blocks false cs
      = ⟨blocks / 2, [], [Diag.cannotRead mode.progName file]⟩ := by
  simp [PrintDirectoryUsage]

/-! ## The claims -/

/-- Claim C1: for every directory the walker is invoked on (readable, so
that its entries can be iterated), the usage total returned by
`PrintDirectoryUsage` equals the directory's own metadata block cost in
KiB (`st_blocks / 2`) plus the summed usage of all of its children
(files, symlinks, and recursively computed subdirectory totals).  The
mode (hence the `-a` flag) and the depth are universally quantified and
absent from the right-hand side: the total is independent of which
children are individually printed. -/
theorem claim_C1 (mode : Mode) (file : String) (depth : ℤ) (blocks : ℕ)
    (children : List FsEntry) :
    (PrintDirectoryUsage mode file depth blocks true children).total
      = blocks / 2 + usageList children := by
  simpa using PrintDirectoryUsage_total mode file depth blocks true children

/-- Claim C2, counterexample: at 10240 KiB (scaled value exactly 10 in
the M unit) the code renders the one-decimal form "10.0M", while the
claim's rule (integer form whenever the scaled value is at least 10)
demands "10M". -/
theorem claim_C2_counterexample :
    PrintFileReadable 10240 ≠ claimRender 10240 := by
  have hL : PrintFileReadable 10240 = RSize.dec 100 SizeUnit.M := by
    unfold PrintFileReadable
    rw [if_neg (by norm_num), if_neg (by norm_num), if_pos (by norm_num),
        if_neg (by norm_num)]
    rw [show ((10240:ℚ) / 1024 * 10) = ((100:ℤ):ℚ) by norm_num,
        ceiling_eq_ceil _ (by norm_num), Int.ceil_intCast]
  have hR : claimRender 10240 = RSize.int 10 SizeUnit.M := by
    have hu : largestUnit 10240 = SizeUnit.M := by
      unfold largestUnit scaledBy
      rw [if_neg (by norm_num), if_neg (by norm_num), if_pos (by norm_num)]
    unfold claimRender
    rw [if_neg (by norm_num), hu]
    unfold claimRenderFn scaledBy
    rw [if_pos (by norm_num)]
    rw [show ((10240:ℚ) / 1024) = ((10:ℤ):ℚ) by norm_num, Int.ceil_intCast]
  rw [hL, hR]
  decide

/-- Claim C2, amended: for every non-negative usage value in KiB the
formatter selects the largest unit among K, M, G, T whose scaled value is
at least 1, renders an integer (rounded up) with unit suffix whenever the
scaled value is strictly greater than 10, renders one decimal place
(ceiling of ten times the scaled value, over ten) whenever the scaled
value is in [1, 10] — including exactly 10 — (for the K unit, in
(0, 10]), and renders a raw zero as the literal "0" without unit. -/
theorem claim_C2_amended (kb : ℕ) : PrintFileReadable kb = specRender kb :=
  PrintFileReadable_eq_specRender kb

/-- Claim C3, counterexample: `--max-depth=-1` is not accepted; the
parser records a configuration error (so the process exits with failure
after parsing), contradicting the claim that it behaves like omitting the
flag. -/
theorem claim_C3_counterexample :
    (ReadCmdArguments "du" ["--max-depth=-1"]).invalid = true := by
  decide

/-- Claim C3, amended: `--max-depth=-1` is rejected as a configuration
error — a diagnostic naming the program and the value "-1" is emitted and
the failure flag is set (the depth field is in fact assigned -1 before
the error exit, but the process never traverses) — whereas omitting the
depth flag leaves the default depth -1, for which every depth passes
`DepthOK` (unlimited output). -/
theorem claim_C3_amended :
    (ReadCmdArguments "du" ["--max-depth=-1"]).invalid = true
    ∧ (ReadCmdArguments "du" ["--max-depth=-1"]).diags
        = [Diag.invalidDepth "du" "-1"]
    ∧ (ReadCmdArguments "du" ["--max-depth=-1"]).mode.depth = -1
    ∧ (ReadCmdArguments "du" []).mode.depth = -1
    ∧ ∀ d : ℤ, DepthOK d (ReadCmdArguments "du" []).mode = true := by
  refine ⟨by decide, by decide, by decide, by decide, ?_⟩
  intro d
  have hd : (ReadCmdArguments "du" []).mode.depth = -1 := by decide
  simp [DepthOK, hd]

/-- Claim C4: the code at the failing input `--max-depth=abc`.  glibc
`strtol` returns 0 for a non-numeric string without touching `errno`, so
the check at du.c line 58 sees `errno == 0`, `depth == 0 >= 0` and a
non-empty value string: no configuration error is recorded, no diagnostic
is emitted, and the maximum depth is silently set to 0 — contradicting
the claim (and the spec), which require a diagnostic and a failure exit
for non-numeric values.  Negative and empty values are rejected as
claimed; the non-numeric case is the code bug. -/
theorem claim_C4_code_eval :
    (ReadCmdArguments "du" ["--max-depth=abc"]).invalid = false
    ∧ (ReadCmdArguments "du" ["--max-depth=abc"]).diags = []
    ∧ (ReadCmdArguments "du" ["--max-depth=abc"]).mode.depth = 0 := by
  refine ⟨by decide, by decide, by decide⟩

/-- Claim C5: with `--max-depth=0` (a configured maximum depth of 0), a
walk of a readable directory prints exactly one output line — the root
directory's total at depth 0 — and no line for any descendant, for every
mode (in particular regardless of the `-a` flag). -/
theorem claim_C5 (mode : Mode) (file : String) (blocks : ℕ)
    (children : List FsEntry) (h : mode.depth = 0) :
    (PrintDirectoryUsage mode file 0 blocks true children).out
      = [⟨(PrintDirectoryUsage mode file 0 blocks true children).total,
          file⟩] := by
  have hnil : (readdirLoop mode file 0 children).out = [] :=
    readdirLoop_out_nil mode (by omega) file 0 children (by omega)
  have hdep : DepthOK 0 mode = true := by
    simp [DepthOK, h]
  simp [PrintDirectoryUsage, hdep, hnil, PrintFileUsage]

theorem claim_C5_witness :
    (⟨true, true, false, 0, "du"⟩ : Mode).depth = 0
    ∧ (PrintDirectoryUsage ⟨true, true, false, 0, "du"⟩ "d" 0 8 true
        [FsEntry.node "f" FileType.reg 3 true []]).out
      = [⟨(PrintDirectoryUsage ⟨true, true, false, 0, "du"⟩ "d" 0 8 true
            [FsEntry.node "f" FileType.reg 3 true []]).total, "d"⟩] :=
  ⟨rfl, claim_C5 ⟨true, true, false, 0, "du"⟩ "d" 8
    [FsEntry.node "f" FileType.reg 3 true []] rfl⟩

/-- Claim C6: every walk's directory-handle trace runs safely: starting
from any number of open handles it ends with exactly that number, every
successfully opened handle is closed, no close ever targets a handle that
is not open, and the `closedir(NULL)` reached through the error path's
`goto cleanup` is a no-op under the (glibc) semantics that guard a null
argument. -/
theorem claim_C6 :
    ∀ (readable : Bool) (children : List FsEntry) (n : ℕ),
      runHandleTrace n (dirHandleTrace readable children) = some n := by
  intro readable children
  refine dirHandleTrace.induct
    (fun readable children =>
      ∀ n, runHandleTrace n (dirHandleTrace readable children) = some n)
    (fun l => ∀ n, runHandleTrace n (entriesHandleTrace l) = some n)
    ?_ ?_ ?_ ?_ readable children
  · intro cc ih n
    simp only [dirHandleTrace, if_pos rfl]
    simp only [runHandleTrace]
    rw [runHandleTrace_append, ih (n + 1)]
    simp [runHandleTrace]
  · intro r cc hr n
    have : r = false := by simpa using hr
    subst this
    simp [dirHandleTrace, runHandleTrace]
  · intro n
    simp [entriesHandleTrace, runHandleTrace]
  · intro name ftype blocks r cc rest ih1 ih2 n
    by_cases hdot : (name == "." || name == "..") = true
    · simp [entriesHandleTrace, hdot, ih2]
    · by_cases hd : isDir ftype = true
      · simp [entriesHandleTrace, hdot, hd, runHandleTrace_append, ih1, ih2]
      · simp [entriesHandleTrace, hdot, hd, ih2]

/-- Claim C7: a directory whose entries cannot be iterated (`opendir`
fails) is reported to stderr with a diagnostic naming the program and the
path, is not descended into, and contributes exactly its own metadata
cost in KiB as the branch total; and when such a directory appears
anywhere in a parent's listing, the siblings before and after it are
still processed normally (so the traversal of siblings and ancestors
continues). -/
theorem claim_C7 (mode : Mode) (file : String) (depth : ℤ) (blocks : ℕ)
    (cs ts1 ts2 : List FsEntry) (n : String)
    (h1 : (n == ".") = false) (h2 : (n == "..") = false) :
    PrintDirectoryUsage mode file depth blocks false cs
      = ⟨blocks / 2, [], [Diag.cannotRead mode.progName file]⟩
    ∧ readdirLoop mode file depth
        (ts1 ++ FsEntry.node n FileType.dirType blocks false cs :: ts2)
      = ⟨(readdirLoop mode file depth ts1).total
           + (blocks / 2 + (readdirLoop mode file depth ts2).total),
         (readdirLoop mode file depth ts1).out
           ++ (readdirLoop mode file depth ts2).out,
         (readdirLoop mode file depth ts1).errs
           ++ (Diag.cannotRead mode.progName (childPath file n)
               :: (readdirLoop mode file depth ts2).errs)⟩ := by
  constructor
  · exact PrintDirectoryUsage_unreadable mode file depth blocks cs
  · have hmid : readdirLoop mode file depth
        (FsEntry.node n FileType.dirType blocks false cs :: ts2)
        = ⟨blocks / 2 + (readdirLoop mode file depth ts2).total,
           (readdirLoop mode file depth ts2).out,
           Diag.cannotRead mode.progName (childPath file n)
             :: (readdirLoop mode file depth ts2).errs⟩ := by
      simp [readdirLoop, h1, h2, isFile, isDir,
            PrintDirectoryUsage_unreadable]
    rw [readdirLoop_append, hmid]

theorem claim_C7_witness :
    (("x" == ".") = false) ∧ (("x" == "..") = false)
    ∧ (PrintDirectoryUsage sampleMode "d" 0 4 false []
        = ⟨4 / 2, [], [Diag.cannotRead sampleMode.progName "d"]⟩
      ∧ readdirLoop sampleMode "d" 0
          ([] ++ FsEntry.node "x" FileType.dirType 4 false [] :: [])
        = ⟨(readdirLoop sampleMode "d" 0 []).total
             + (4 / 2 + (readdirLoop sampleMode "d" 0 []).total),
           (readdirLoop sampleMode "d" 0 []).out
             ++ (readdirLoop sampleMode "d" 0 []).out,
           (readdirLoop sampleMode "d" 0 []).errs
             ++ (Diag.cannotRead sampleMode.progName (childPath "d" "x")
                 :: (readdirLoop sampleMode "d" 0 []).errs)⟩) :=
  ⟨by decide, by decide,
   claim_C7 sampleMode "d" 0 4 [] [] [] "x" (by decide) (by decide)⟩

/-- Claim C8: an explicitly named top-level target that is a regular file
or symlink always gets its usage line printed and its usage (its
`st_blocks / 2`) added to the grand total, for every mode — in particular
regardless of the `-a` flag and of the configured maximum depth, which
are universally quantified here and appear nowhere in the conclusion's
line or total contribution. -/
theorem claim_C8 (mode : Mode) (cwd : ℕ × Bool × List FsEntry)
    (ts1 ts2 : List (String × TargetStat)) (p : String) (ft : FileType)
    (b : ℕ) (r : Bool) (cs : List FsEntry) (h : isFile ft = true) :
    (PrintDiskUsage mode cwd
        (ts1 ++ (p, TargetStat.present ft b r cs) :: ts2)).total
      = (duTargets mode ts1).total + (b / 2 + (duTargets mode ts2).total)
    ∧ (PrintDiskUsage mode cwd
        (ts1 ++ (p, TargetStat.present ft b r cs) :: ts2)).out
      = (duTargets mode ts1).out
        ++ (OutLine.mk (b / 2) p :: (duTargets mode ts2).out)
        ++ (if mode.total then
              [OutLine.mk ((duTargets mode ts1).total
                 + (b / 2 + (duTargets mode ts2).total)) "total"]
            else []) := by
  have hne : (ts1 ++ (p, TargetStat.present ft b r cs) :: ts2).isEmpty
      = false := by
    cases ts1 <;> rfl
  have hmid : duTargets mode ((p, TargetStat.present ft b r cs) :: ts2)
      = ⟨b / 2 + (duTargets mode ts2).total,
         OutLine.mk (b / 2) p :: (duTargets mode ts2).out,
         (duTargets mode ts2).errs, (duTargets mode ts2).failed⟩ := by
    simp [duTargets, processTarget, h, PrintFileUsage]
  have hall := duTargets_append mode ts1
    ((p, TargetStat.present ft b r cs) :: ts2)
  rw [hmid] at hall
  constructor
  · simp [PrintDiskUsage, hne, hall]
  · simp [PrintDiskUsage, hne, hall, PrintFileUsage, List.append_assoc]

theorem claim_C8_witness :
    isFile FileType.reg = true
    ∧ ((PrintDiskUsage sampleMode (0, false, [])
          ([] ++ ("f", TargetStat.present FileType.reg 3 true []) :: [])).total
        = (duTargets sampleMode []).total
            + (3 / 2 + (duTargets sampleMode []).total)
      ∧ (PrintDiskUsage sampleMode (0, false, [])
          ([] ++ ("f", TargetStat.present FileType.reg 3 true []) :: [])).out
        = (duTargets sampleMode []).out
            ++ (OutLine.mk (3 / 2) "f" :: (duTargets sampleMode []).out)
            ++ (if sampleMode.total then
                  [OutLine.mk ((duTargets sampleMode []).total
                     + (3 / 2 + (duTargets sampleMode []).total)) "total"]
                else [])) :=
  ⟨rfl, claim_C8 sampleMode (0, false, []) [] [] "f" FileType.reg 3 true [] rfl⟩

/-- Claim C9: human-readable rendering is monotonic.  For non-negative
usage values `a ≤ b` (in KiB), the unit tier rendered for `b` is never
lower than the tier rendered for `a` (with the bare "0" of a zero value
below every tier), and when both render in the same tier the numeric part
rendered for `b` is at least the numeric part rendered for `a`. -/
theorem claim_C9 (a b : ℕ) (hab : a ≤ b) :
    tierIdx (PrintFileReadable a) ≤ tierIdx (PrintFileReadable b)
    ∧ (tierIdx (PrintFileReadable a) = tierIdx (PrintFileReadable b) →
        numVal (PrintFileReadable a) ≤ numVal (PrintFileReadable b)) := by
  rw [PrintFileReadable_eq_specRender a, PrintFileReadable_eq_specRender b]
  have hcast : (a:ℚ) ≤ (b:ℚ) := by exact_mod_cast hab
  have h0a : (0:ℚ) ≤ (a:ℚ) := Nat.cast_nonneg a
  by_cases hza : (a:ℚ) = 0
  · constructor
    · simp [specRender, hza, tierIdx]
    · intro hEq
      by_cases hzb : (b:ℚ) = 0
      · simp [specRender, hza, hzb, numVal]
      · exfalso
        simp only [specRender, if_pos hza, if_neg hzb,
                   tierIdx_specRenderFn] at hEq
        simp only [tierIdx] at hEq
        have h1 := one_le_unitIdx (largestUnit (b:ℚ))
        omega
  · have hzb : ¬ (b:ℚ) = 0 := by
      intro h
      rw [h] at hcast
      exact hza (le_antisymm hcast h0a)
    simp only [specRender, if_neg hza, if_neg hzb]
    constructor
    · rw [tierIdx_specRenderFn, tierIdx_specRenderFn]
      exact unitIdx_largestUnit_mono hcast
    · intro hEq
      rw [tierIdx_specRenderFn, tierIdx_specRenderFn] at hEq
      have hu : largestUnit (a:ℚ) = largestUnit (b:ℚ) := unitIdx_inj hEq
      rw [hu]
      exact numVal_specRenderFn_mono _ h0a hcast

theorem claim_C9_witness :
    (2 : ℕ) ≤ 5
    ∧ (tierIdx (PrintFileReadable 2) ≤ tierIdx (PrintFileReadable 5)
      ∧ (tierIdx (PrintFileReadable 2) = tierIdx (PrintFileReadable 5) →
          numVal (PrintFileReadable 2) ≤ numVal (PrintFileReadable 5))) :=
  ⟨by decide, claim_C9 2 5 (by decide)⟩

/-- Claim C10: an explicitly named top-level target that exists but is
neither a regular file, a symlink, nor a directory (a FIFO, socket or
device node) produces no output line, contributes nothing to the grand
total, emits no diagnostic, and does not set the failure flag: the driver
result is exactly the combination of the other targets' results. -/
theorem claim_C10 (mode : Mode) (cwd : ℕ × Bool × List FsEntry)
    (ts1 ts2 : List (String × TargetStat)) (p : String) (ft : FileType)
    (b : ℕ) (r : Bool) (cs : List FsEntry)
    (hf : isFile ft = false) (hd : isDir ft = false) :
    PrintDiskUsage mode cwd (ts1 ++ (p, TargetStat.present ft b r cs) :: ts2)
      = ⟨(duTargets mode ts1).total + (duTargets mode ts2).total,
         (duTargets mode ts1).out ++ (duTargets mode ts2).out
           ++ (if mode.total then
                 [OutLine.mk ((duTargets mode ts1).total
                    + (duTargets mode ts2).total) "total"]
               else []),
         (duTargets mode ts1).errs ++ (duTargets mode ts2).errs,
         (duTargets mode ts1).failed || (duTargets mode ts2).failed⟩ := by
  have hne : (ts1 ++ (p, TargetStat.present ft b r cs) :: ts2).isEmpty
      = false := by
    cases ts1 <;> rfl
  have hmid : duTargets mode ((p, TargetStat.present ft b r cs) :: ts2)
      = duTargets mode ts2 := by
    simp [duTargets, processTarget, hf, hd]
  have hall := duTargets_append mode ts1
    ((p, TargetStat.present ft b r cs) :: ts2)
  rw [hmid] at hall
  simp [PrintDiskUsage, hne, hall, PrintFileUsage]

theorem claim_C10_witness :
    isFile FileType.fifo = false ∧ isDir FileType.fifo = false
    ∧ PrintDiskUsage sampleMode (0, false, [])
        ([] ++ ("p", TargetStat.present FileType.fifo 7 true []) :: [])
      = ⟨(duTargets sampleMode []).total + (duTargets sampleMode []).total,
         (duTargets sampleMode []).out ++ (duTargets sampleMode []).out
           ++ (if sampleMode.total then
                 [OutLine.mk ((duTargets sampleMode []).total
                    + (duTargets sampleMode []).total) "total"]
               else []),
         (duTargets sampleMode []).errs ++ (duTargets sampleMode []).errs,
         (duTargets sampleMode []).failed || (duTargets sampleMode []).failed⟩ :=
  ⟨rfl, rfl,
   claim_C10 sampleMode (0, false, []) [] [] "p" FileType.fifo 7 true [] rfl rfl⟩
